import Mathlib

/-!
Verification of the `skills` repository against its natural-language
specification.  The repository is a reinforcement-learning research harness:
a goal-conditioned reward-shaping wrapper (`monte_ladder_goal_wrapper.py`),
a MuJoCo environment subclass (`ant_bridge.py`), a training loop
(`ensemble/train.py`) and plotting utilities (`baseline/plot.py`).

The shallow embedding below translates the data-manipulating parts of these
files into Lean.  External-library effects (the ALE emulator, the MuJoCo
simulator, the agent's neural networks, the file system) are modelled as
explicit inputs: the emulator outcome of one step is an `InnerStep` record,
the physics outcome is the post-simulation torso position, the directory tree
read by the plotting code is a list of entries, and so on.
-/

/-! ## monte_ladder_goal_wrapper.py -/

/-- Euclidean-norm comparison `np.linalg.norm v < tol`, phrased with squares
to stay inside `ℚ` (for `tol ≥ 0` the two are equivalent, and for `tol < 0`
both sides are false). -/
def normLt (v : ℚ × ℚ) (tol : ℚ) : Bool :=
  decide (0 < tol ∧ v.1 ^ 2 + v.2 ^ 2 < tol ^ 2)

/-- `GoalsCollection`: the room number and the goal positions loaded from the
resource files (the file contents are inputs to the model). -/
structure GoalsCollection where
  room : ℤ
  goals : List (ℚ × ℚ)
deriving DecidableEq

/-- `GoalsCollection.is_within_goal_position`: the player is within an epsilon
tolerance of one of the goal positions.  The python for-loop with early
return is `List.any`. -/
def GoalsCollection.is_within_goal_position (gc : GoalsCollection) (room_number : ℤ)
    (player_pos : ℚ × ℚ) (tol : ℚ) : Bool :=
  if room_number ≠ gc.room then false
  else gc.goals.any (fun goal => normLt (player_pos.1 - goal.1, player_pos.2 - goal.2) tol)

/-- The `room_to_goals` table: `goalsOfRoom` abstracts the goal-file contents
for each room; an entry of the table is the collection for that room. -/
def room_to_goals (goalsOfRoom : ℤ → List (ℚ × ℚ)) (room : ℤ) : GoalsCollection :=
  ⟨room, goalsOfRoom room⟩

/-- The gym `info` dict as the wrapper observes it: the key `reached_goal`
that the wrapper may add, the key `needs_reset` that it reads (with default
`False`), and the remaining entries left untouched. -/
structure MonteInfo where
  reached_goal : Option Bool
  needs_reset : Bool
  other_entries : List (String × ℚ)
deriving DecidableEq

/-- `MonteLadderGoalWrapper` state set up by `__init__`. -/
structure MonteLadderGoalWrapper where
  epsilon_tol : ℚ
  info_only : Bool
  room_number : ℤ
  goal_regions : GoalsCollection

/-- The `__init__` constructor: `room_number` is the room the agent starts
in (read from the RAM) and `goal_regions = room_to_goals[room_number]`. -/
def MonteLadderGoalWrapper.make (goalsOfRoom : ℤ → List (ℚ × ℚ)) (epsilon_tol : ℚ)
    (info_only : Bool) (start_room : ℤ) : MonteLadderGoalWrapper :=
  ⟨epsilon_tol, info_only, start_room, room_to_goals goalsOfRoom start_room⟩

/-- `MonteLadderGoalWrapper.reached_goal`. -/
def MonteLadderGoalWrapper.reached_goal (w : MonteLadderGoalWrapper)
    (player_pos : ℚ × ℚ) (room_number : ℤ) : Bool :=
  decide (room_number = w.room_number) &&
    w.goal_regions.is_within_goal_position room_number player_pos w.epsilon_tol

/-- `MonteLadderGoalWrapper.finished_skill`: returns
`(reward, terminal, info, needs_real_reset)`; the last component is the value
written to `env.unwrapped.needs_real_reset` (a side effect on the wrapped
environment, not part of the step result). -/
def MonteLadderGoalWrapper.finished_skill (w : MonteLadderGoalWrapper)
    (player_pos : ℚ × ℚ) (room_number : ℤ) (done : Bool) (info : MonteInfo) :
    ℚ × Bool × MonteInfo × Bool :=
  let rg := w.reached_goal player_pos room_number
  let info2 := { info with reached_goal := some rg }
  let reward : ℚ := if rg = true then 1 else 0
  let done1 := if rg = true then true else done
  let in_same_room : Bool := decide (room_number = w.room_number)
  let done2 := if in_same_room = false then true else done1
  let needs_real_reset := done2 || info2.needs_reset
  (reward, done2, info2, needs_real_reset)

/-- The outcome of `self.env.step(action)` together with the player position
and room number decoded from the RAM afterwards (the emulator is external;
its outcome is an input of the model).  `next_state` is an opaque
observation. -/
structure InnerStep where
  next_state : ℕ
  reward : ℚ
  done : Bool
  info : MonteInfo
  player_pos : ℚ × ℚ
  room : ℤ

/-- The tuple returned by `MonteLadderGoalWrapper.step`. -/
structure MonteStepResult where
  next_state : ℕ
  reward : ℚ
  done : Bool
  info : MonteInfo
deriving DecidableEq

/-- `MonteLadderGoalWrapper.step`: the second component of the result is the
`needs_real_reset` side effect. -/
def MonteLadderGoalWrapper.step (w : MonteLadderGoalWrapper) (inp : InnerStep) :
    MonteStepResult × Bool :=
  match w.finished_skill inp.player_pos inp.room inp.done inp.info with
  | (goal_reward, terminal, info, needs_real_reset) =>
    let reward := if w.info_only then inp.reward else goal_reward
    let done := if w.info_only then inp.done else terminal
    (⟨inp.next_state, reward, done, info⟩, needs_real_reset)

/-- The goal condition as the specification words it: the player is within
`epsilon_tol` (Euclidean norm) of one of the goal positions of the room the
agent started in, and the player is still in that room. -/
def ladderGoalSpec (goalsOfRoom : ℤ → List (ℚ × ℚ)) (start_room : ℤ) (tol : ℚ)
    (pos : ℚ × ℚ) (room : ℤ) : Prop :=
  room = start_room ∧
    ∃ g ∈ goalsOfRoom start_room,
      0 < tol ∧ (pos.1 - g.1) ^ 2 + (pos.2 - g.2) ^ 2 < tol ^ 2

instance ladderGoalSpecDecidable (goalsOfRoom : ℤ → List (ℚ × ℚ)) (start_room : ℤ)
    (tol : ℚ) (pos : ℚ × ℚ) (room : ℤ) :
    Decidable (ladderGoalSpec goalsOfRoom start_room tol pos room) := by
  unfold ladderGoalSpec; infer_instance

/-! ## envs/ant_bridge.py -/

/-- The state of `AntBridgeEnv` that `step` reads and writes: the step
counter, the persistent `_outside` flag, the episode parameters, and the
torso centre-of-mass position `(x, y, z)` before the simulation substep.
The physics itself is external: the post-substep torso position is an input
of the model. -/
structure AntState where
  current_step : ℕ
  max_step : ℕ
  outside_flag : Bool
  goal_reward : ℚ
  outside_reward : ℚ
  floor_width : ℚ
  floor_backAndfront_width : ℚ
  distanceToGoalWeight : ℚ
  pos : ℚ × ℚ × ℚ
deriving DecidableEq

/-- `AntBridgeEnv.distance_to_goal`: the remaining y-distance to the fixed
goal line `y = 26`. -/
def distance_to_goal (y : ℚ) : ℚ := 26 - y

/-- The boundary check of `AntBridgeEnv.step` applied to the post-substep
torso position: on the bridge segment (`5 ≤ y ≤ 21`) the narrow
`floor_width` bound applies, elsewhere `floor_backAndfront_width`. -/
def outside_now (s : AntState) (p : ℚ × ℚ × ℚ) : Bool :=
  if 5 ≤ p.2.1 ∧ p.2.1 ≤ 21 then
    decide (p.1 < -s.floor_width ∨ s.floor_width ≤ p.1)
  else
    decide (p.1 < -s.floor_backAndfront_width ∨ s.floor_backAndfront_width ≤ p.1)

/-- The components of the tuple returned by `AntBridgeEnv.step` that the
claims are about (`success` is the entry of the info dict). -/
structure AntStepResult where
  reward : ℚ
  done : Bool
  success : Bool
deriving DecidableEq

/-- `AntBridgeEnv.step`: `p` is the torso position after `do_simulation`.
Returns the step result and the updated environment state.  The two
branches of the python boundary check both set `self._outside = True` and
`outside_reward = self.outside_reward` when the bound is violated, which is
written here through `outside_now`. -/
def AntBridgeEnv.step (s : AntState) (p : ℚ × ℚ × ℚ) : AntStepResult × AntState :=
  let yposbefore := s.pos.2.1
  let distanceToGoalBefore := distance_to_goal yposbefore
  let current_step := s.current_step + 1
  let yposafter := p.2.1
  let out_now := outside_now s p
  let outside_flag := s.outside_flag || out_now
  let outside_reward : ℚ := if out_now = true then s.outside_reward else 0
  let tipped_over : Bool := decide (p.2.2 ≤ 3 / 10)
  let distanceToGoalAfter := distance_to_goal yposafter
  let distanceToGoalReward := (distanceToGoalBefore - distanceToGoalAfter) * s.distanceToGoalWeight
  let ctrl_cost : ℚ := 0
  let done0 : Bool := outside_flag || decide (s.max_step ≤ current_step) || tipped_over
  let isGoal : Bool := decide (distanceToGoalAfter < 1 / 10)
  let done := done0 || isGoal
  let success := isGoal
  let goal_reward : ℚ := if isGoal = true then s.goal_reward else 0
  let reward := outside_reward + goal_reward + distanceToGoalReward - ctrl_cost
  (⟨reward, done, success⟩,
    { s with current_step := current_step, outside_flag := outside_flag, pos := p })

/-- A concrete `AntBridgeEnv` state whose persistent `_outside` flag is
already set (as `place_ant` and post-done stepping can produce) while the
torso is back inside the floor: the default episode parameters of
`__init__`, step counter `0`, position `(0, 0, 1)`. -/
def antCE : AntState :=
  ⟨0, 400, true, 20, -5, 3 / 2, 10, 20, (0, 0, 1)⟩

/-! ## ensemble/train.py -/

/-- The hyperparameters read by `check_params_validity`. -/
structure TrainParams where
  agent : String
  target_update_interval : ℤ
  ensemble_target_update_interval : ℤ
  update_interval : ℤ
deriving DecidableEq

/-- A python `assert`: succeeds on a true condition, otherwise raises
`AssertionError`. -/
def assertCheck (b : Bool) : Except String Unit :=
  if b then Except.ok () else Except.error "AssertionError"

/-- `TrainEnsembleOfSkills.check_params_validity`: inside a
`try`/`except AssertionError` the consistency of `target_update_interval`
is asserted; the handler repairs the value to
`ensemble_target_update_interval * update_interval` instead of letting the
exception propagate. -/
def check_params_validity (p : TrainParams) : Except String TrainParams :=
  if p.agent = "ensemble" then
    match assertCheck (decide (p.target_update_interval =
        p.ensemble_target_update_interval * p.update_interval)) with
    | Except.ok _ => Except.ok p
    | Except.error _ =>
      Except.ok { p with target_update_interval :=
        p.ensemble_target_update_interval * p.update_interval }
  else Except.ok p

/-- Hyperparameters violating the `target_update_interval` consistency
assertion (`5 ≠ 2 * 3`). -/
def paramsCE : TrainParams := ⟨"ensemble", 5, 2, 3⟩

/-- The `choices` list of the `--action_selection_strat` argument. -/
def action_selection_strat_choices : List String := ["vote", "uniform_leader", "leader"]

/-- argparse's handling of `--action_selection_strat`: absent means the
default `"leader"`; present values are admitted exactly when listed in
`choices`, and admitted values are stored unchanged. -/
def parse_action_selection_strat : Option String → Except String String
  | none => Except.ok "leader"
  | some s =>
    if s ∈ action_selection_strat_choices then Except.ok s
    else Except.error ("argument --action_selection_strat: invalid choice: " ++ s)

/-- The `EnsembleAgent` constructor arguments relevant to the claims. -/
structure EnsembleAgentConfig where
  action_selection_strategy : String
  num_modules : ℕ
deriving DecidableEq

/-- Modelled from the spec: `SingleOptionTrial.load_hyperparams` is not under
`src/`; per the spec's description of CLI-flag-driven configuration, the
parsed command-line value is carried into the hyperparameter dict
unchanged. -/
def load_hyperparams_strat (parsed : String) : String := parsed

/-- The `EnsembleAgent(...)` call of `TrainEnsembleOfSkills.setup` on the
ensemble branch: `action_selection_strategy=self.params['action_selection_strat']`. -/
def setup_ensemble_agent (strat : String) (num_policies : ℕ) : EnsembleAgentConfig :=
  ⟨strat, num_policies⟩

/-- The environment as the training loop sees it: a deterministic step
function from environment state and action to the next environment state,
observation, reward and done flag, plus a reset function. -/
structure EnvModel (E O A : Type) where
  step : E → A → E × O × ℚ × Bool
  reset : E → E × O

/-- The agent as the training loop sees it: `act` returns the updated
internal state and the chosen action, `observe` feeds back a transition. -/
structure AgentModel (G O A : Type) where
  act : G → O → G × A
  observe : G → O → A → ℚ → O → Bool → G

/-- One observable call made by the body of `train_option`'s while loop. -/
inductive TrainEvent (O A : Type) where
  | act (state : O) (action : A)
  | envStep (action : A) (next : O) (reward : ℚ) (done : Bool)
  | observe (state : O) (action : A) (reward : ℚ) (next : O) (done : Bool)
  | recordSuccess (success : Bool) (episode : ℕ)
  | reset (newState : O)
deriving DecidableEq

/-- The while loop of `TrainEnsembleOfSkills.train_option`, as the list of
calls it makes.  In the `done` branch the code records
`done and reward == 1`; `done` is true there, so the recorded flag is
`reward == 1`. -/
def trainLoop {E O A G : Type} (env : EnvModel E O A) (ag : AgentModel G O A) :
    ℕ → G → E → O → ℕ → List (TrainEvent O A)
  | 0, _, _, _, _ => []
  | Nat.succ n, g, e, s, ep =>
    match ag.act g s with
    | (g1, a) =>
      match env.step e a with
      | (e1, s', r, d) =>
        let g2 := ag.observe g1 s a r s' d
        match d with
        | true =>
          match env.reset e1 with
          | (e2, s0) =>
            TrainEvent.act s a :: TrainEvent.envStep a s' r true ::
              TrainEvent.observe s a r s' true ::
              TrainEvent.recordSuccess (decide (r = 1)) ep ::
              TrainEvent.reset s0 :: trainLoop env ag n g2 e2 s0 (ep + 1)
        | false =>
          TrainEvent.act s a :: TrainEvent.envStep a s' r false ::
            TrainEvent.observe s a r s' false :: trainLoop env ag n g2 e1 s' ep

/-- `TrainEnsembleOfSkills.train_option`: reset the environment once, then
run the while loop for `params['steps']` iterations (a python int). -/
def train_option {E O A G : Type} (env : EnvModel E O A) (ag : AgentModel G O A)
    (steps : ℤ) (g : G) (e0 : E) : List (TrainEvent O A) :=
  match env.reset e0 with
  | (e, s0) => trainLoop env ag steps.toNat g e s0 0

/-- The number of `agent.act` calls in a trace — one per loop iteration. -/
def countActs {O A : Type} : List (TrainEvent O A) → ℕ
  | [] => 0
  | TrainEvent.act _ _ :: rest => countActs rest + 1
  | _ :: rest => countActs rest

/-- The call pattern the claim describes: each iteration is `agent.act` on
the current state, then `env.step` with that action, then `agent.observe`
with the resulting transition, and the success recording and environment
reset happen exactly when `done` was returned true. -/
inductive WFTrace {O A : Type} : List (TrainEvent O A) → Prop where
  | nil : WFTrace []
  | contStep (s : O) (a : A) (s' : O) (r : ℚ) (rest : List (TrainEvent O A)) :
      WFTrace rest →
      WFTrace (TrainEvent.act s a :: TrainEvent.envStep a s' r false ::
        TrainEvent.observe s a r s' false :: rest)
  | doneStep (s : O) (a : A) (s' : O) (r : ℚ) (ep : ℕ) (s0 : O)
      (rest : List (TrainEvent O A)) :
      WFTrace rest →
      WFTrace (TrainEvent.act s a :: TrainEvent.envStep a s' r true ::
        TrainEvent.observe s a r s' true ::
        TrainEvent.recordSuccess (decide (r = 1)) ep ::
        TrainEvent.reset s0 :: rest)

/-- A concrete environment for evaluating the loop: the observation counts
steps and `done` fires when it reaches 2. -/
def envC : EnvModel ℕ ℕ ℕ :=
  ⟨fun e a => (e + a + 1, e + a + 1, 1, decide (2 ≤ e + a + 1)), fun _ => (0, 0)⟩

/-- A concrete agent for evaluating the loop. -/
def agC : AgentModel ℕ ℕ ℕ :=
  ⟨fun g s => (g + 1, g + s), fun g _ _ _ _ _ => g⟩

/-! ## baseline/plot.py -/

/-- One row of a `progress.csv` file, restricted to the columns selected by
`process_training_curve_csv_file`; `none` is a NaN cell. -/
structure CsvRow where
  level_total_steps : Option ℚ
  level_index : Option ℚ
  ep_reward_mean : Option ℚ
  total_steps : Option ℚ
deriving DecidableEq

/-- A row of the concatenated dataframe after the `agent` and `seed` columns
are added. -/
structure DfRow where
  level_total_steps : Option ℚ
  level_index : Option ℚ
  ep_reward_mean : Option ℚ
  total_steps : Option ℚ
  agent : String
  seed : ℤ
deriving DecidableEq

/-- A seed subdirectory: its (integer) name and its `progress.csv` content,
`none` when the file does not exist. -/
structure SeedDir where
  seed : ℤ
  progress : Option (List CsvRow)
deriving DecidableEq

/-- An entry of `os.listdir(exp_dir)`: a name, whether it is a directory
(non-directories are skipped), and its seed subdirectories. -/
structure AgentEntry where
  name : String
  is_dir : Bool
  seeds : List SeedDir
deriving DecidableEq

/-- pandas `Series.max`: NaN cells are skipped; the max of an empty or
all-NaN column is NaN. -/
def optMax : List (Option ℚ) → Option ℚ
  | [] => none
  | none :: rest => optMax rest
  | some v :: rest =>
    match optMax rest with
    | none => some v
    | some m => some (max v m)

/-- `df['total_steps'].max()`. -/
def maxTotalSteps (rows : List CsvRow) : Option ℚ :=
  optMax (rows.map (fun r => r.total_steps))

/-- `first_char_upper`: `game_name[0].upper() + game_name[1:]` — the first
character upper-cased, concatenated with the rest (python raises
`IndexError` on the empty string; directory names are nonempty, and the
model returns the empty string there). -/
def first_char_upper (s : String) : String :=
  match s.data with
  | [] => String.mk []
  | c :: rest => String.mk (Char.toUpper c :: rest)

/-- Add the `agent` (first letter upper-cased) and `seed` columns. -/
def tagRows (agent : String) (seed : ℤ) (rows : List CsvRow) : List DfRow :=
  rows.map (fun r =>
    ⟨r.level_total_steps, r.level_index, r.ep_reward_mean, r.total_steps,
      first_char_upper agent, seed⟩)

/-- The message of the `assert os.path.exists(csv_path)` failure. -/
def assertMsg_missing_csv : String := "AssertionError: progress.csv does not exist"

/-- The message of the `total_steps` completeness assertion failure. -/
def assertMsg_incomplete : String := "AssertionError: total steps is not complete (20 * 500k)"

/-- The body of the inner loop of `process_training_curve_csv_file` for one
seed directory: assert the csv exists, read it, assert the maximum of
`total_steps` is exactly 10,000,000, then tag and collect the rows. -/
def processSeed (agentName : String) (sd : SeedDir) : Except String (List DfRow) :=
  match sd.progress with
  | none => Except.error assertMsg_missing_csv
  | some rows =>
    if maxTotalSteps rows = some 10000000 then Except.ok (tagRows agentName sd.seed rows)
    else Except.error assertMsg_incomplete

/-- The seed loop, accumulating the collected frames in order and stopping
at the first raised assertion. -/
def processSeeds (agentName : String) : List SeedDir → List DfRow → Except String (List DfRow)
  | [], acc => Except.ok acc
  | sd :: rest, acc =>
    match processSeed agentName sd with
    | Except.error e => Except.error e
    | Except.ok df => processSeeds agentName rest (acc ++ df)

/-- The agent loop body: non-directories are skipped. -/
def processAgent (a : AgentEntry) (acc : List DfRow) : Except String (List DfRow) :=
  if a.is_dir then processSeeds a.name a.seeds acc else Except.ok acc

/-- The agent loop. -/
def collectRows : List AgentEntry → List DfRow → Except String (List DfRow)
  | [], acc => Except.ok acc
  | a :: rest, acc =>
    match processAgent a acc with
    | Except.error e => Except.error e
    | Except.ok acc2 => collectRows rest acc2

/-- A row with at least one NaN cell (`rewards.isna().any(axis=1)`). -/
def isnaRow (r : DfRow) : Bool :=
  r.level_total_steps.isNone || r.level_index.isNone ||
    r.ep_reward_mean.isNone || r.total_steps.isNone

/-- The maximum `level_total_steps` among NaN-containing rows. -/
def maxNanStep (rows : List DfRow) : Option ℚ :=
  optMax ((rows.filter isnaRow).map (fun r => r.level_total_steps))

/-- A pandas `>` comparison: any comparison with NaN is false. -/
def optGt : Option ℚ → Option ℚ → Bool
  | some a, some b => decide (b < a)
  | _, _ => false

/-- The `query(f"level_total_steps > {max_nan_step}")` filter. -/
def nanFilter (rows : List DfRow) : List DfRow :=
  rows.filter (fun r => optGt r.level_total_steps (maxNanStep rows))

/-- The sparsifying filter `level_total_steps % 5_000 == 0`; a rational is a
multiple of 5000 exactly when dividing by 5000 leaves denominator 1, and a
NaN never compares equal. -/
def sparsify (rows : List DfRow) : List DfRow :=
  rows.filter (fun r =>
    match r.level_total_steps with
    | some x => decide ((x / 5000).den = 1)
    | none => false)

/-- The groupby key `(level_total_steps, agent, seed)`. -/
def dfKey (r : DfRow) : Option ℚ × String × ℤ :=
  (r.level_total_steps, r.agent, r.seed)

/-- pandas `mean` of a column: NaN cells are skipped; an empty or all-NaN
column has NaN mean. -/
def optMean (l : List (Option ℚ)) : Option ℚ :=
  let vals := l.filterMap id
  if vals.length = 0 then none else some (vals.sum / (vals.length : ℚ))

/-- `groupby(['level_total_steps', 'agent', 'seed']).mean().reset_index()`:
one output row per distinct key, the remaining numeric columns averaged over
the group.  Row order is abstracted to first-occurrence order. -/
def groupbyMean (rows : List DfRow) : List DfRow :=
  ((rows.map dfKey).dedup).map (fun k =>
    let grp := rows.filter (fun r => decide (dfKey r = k))
    ⟨k.1, optMean (grp.map (fun r => r.level_index)),
      optMean (grp.map (fun r => r.ep_reward_mean)),
      optMean (grp.map (fun r => r.total_steps)), k.2.1, k.2.2⟩)

/-- `process_training_curve_csv_file`.  `pandas.concat` of an empty list of
frames raises a `ValueError`; each frame that passes the `total_steps`
assertion is nonempty, so the collected list of frames is empty exactly when
the concatenation is. -/
def process_training_curve_csv_file (entries : List AgentEntry)
    (average_across_levels : Bool) : Except String (List DfRow) :=
  match collectRows entries [] with
  | Except.error e => Except.error e
  | Except.ok rewards =>
    if rewards.isEmpty then Except.error "ValueError: no objects to concatenate"
    else
      let subset := nanFilter rewards
      if !average_across_levels then Except.ok (sparsify subset)
      else Except.ok (groupbyMean subset)

/-- A directory tree whose single seed directory lacks `progress.csv`. -/
def entriesBad : List AgentEntry := [⟨"ppo", true, [⟨0, none⟩]⟩]

/-- A directory tree with one agent and one seed whose csv is complete
(maximum `total_steps` is 10,000,000) and has one NaN row. -/
def entriesA : List AgentEntry :=
  [⟨"ppo", true, [⟨0, some
    [⟨some 100, some 0, none, some 100⟩,
     ⟨some 200, some 0, some 3, some 10000000⟩]⟩]⟩]

/-- The dataframe `process_training_curve_csv_file entriesA true` returns. -/
def outA : List DfRow := [⟨some 200, some 0, some 3, some 10000000, "Ppo", 0⟩]

/-- The command-line flags of `plot.py`. -/
structure PlotArgs where
  load : String
  compare : Bool
  gap : Bool
  evaluation : Bool
  train : Bool
  transfer : Bool
  unrolled : Bool
  procgen : Bool
  debug : Bool

/-- The plotting function `plot.py`'s `__main__` block invokes. -/
inductive PlotCall where
  | all_agents_reward_data (dir : String)
  | all_agents_generalization_gap (dir : String)
  | train_eval_curve (dir : String) (kind : String)
  | transfer_exp_all_level_curves (dir : String)
  | transfer_exp_training_curve_across_levels (dir : String) (unrolled : Bool)
  | eight_procgen_games (dir : String)
  | reward_curve (dir : String)
deriving DecidableEq

/-- The `if args.compare: ... elif ... else` dispatch of `__main__`. -/
def plotMain (a : PlotArgs) : PlotCall :=
  if a.compare then PlotCall.all_agents_reward_data a.load
  else if a.gap then PlotCall.all_agents_generalization_gap a.load
  else if a.evaluation then PlotCall.train_eval_curve a.load "eval"
  else if a.train then PlotCall.train_eval_curve a.load "train"
  else if a.transfer then
    if a.debug then PlotCall.transfer_exp_all_level_curves a.load
    else PlotCall.transfer_exp_training_curve_across_levels a.load a.unrolled
  else if a.procgen then PlotCall.eight_procgen_games a.load
  else PlotCall.reward_curve a.load

/-! ## Theorems for the wrapper -/

theorem make_info_only (goalsOfRoom : ℤ → List (ℚ × ℚ)) (tol : ℚ) (io : Bool)
    (start_room : ℤ) :
    (MonteLadderGoalWrapper.make goalsOfRoom tol io start_room).info_only = io := rfl

theorem make_room_number (goalsOfRoom : ℤ → List (ℚ × ℚ)) (tol : ℚ) (io : Bool)
    (start_room : ℤ) :
    (MonteLadderGoalWrapper.make goalsOfRoom tol io start_room).room_number = start_room := rfl

theorem reached_goal_iff_spec (goalsOfRoom : ℤ → List (ℚ × ℚ)) (tol : ℚ)
    (start_room : ℤ) (io : Bool) (pos : ℚ × ℚ) (room : ℤ) :
    (MonteLadderGoalWrapper.make goalsOfRoom tol io start_room).reached_goal pos room = true ↔
      ladderGoalSpec goalsOfRoom start_room tol pos room := by
  unfold MonteLadderGoalWrapper.reached_goal MonteLadderGoalWrapper.make
    GoalsCollection.is_within_goal_position room_to_goals ladderGoalSpec normLt
  by_cases h : room = start_room
  · simp [h, List.any_eq_true]
  · simp [h]

/-- C1: with `info_only=False`, a step returns reward `1` and `done=True`
exactly when the player is within `epsilon_tol` (Euclidean norm) of a goal
position of the starting room while still in that room; in every other case
the returned reward is `0`, overriding the wrapped environment's reward. -/
theorem C1_ladder_wrapper_reward (goalsOfRoom : ℤ → List (ℚ × ℚ)) (tol : ℚ)
    (start_room : ℤ) (inp : InnerStep) :
    ((((MonteLadderGoalWrapper.make goalsOfRoom tol false start_room).step inp).1.reward = 1 ∧
      ((MonteLadderGoalWrapper.make goalsOfRoom tol false start_room).step inp).1.done = true) ↔
        ladderGoalSpec goalsOfRoom start_room tol inp.player_pos inp.room) ∧
    ((MonteLadderGoalWrapper.make goalsOfRoom tol false start_room).step inp).1.reward =
      (if ladderGoalSpec goalsOfRoom start_room tol inp.player_pos inp.room then 1 else 0) := by
  have hspec := reached_goal_iff_spec goalsOfRoom tol start_room false inp.player_pos inp.room
  by_cases hs : ladderGoalSpec goalsOfRoom start_room tol inp.player_pos inp.room
  · have hrg := hspec.mpr hs
    have hroom : inp.room = start_room := hs.1
    have hrg2 := hrg
    rw [hroom] at hrg2
    have hs2 := hs
    rw [hroom] at hs2
    refine ⟨?_, ?_⟩
    · simp [MonteLadderGoalWrapper.step, MonteLadderGoalWrapper.finished_skill,
        make_info_only, make_room_number, hrg, hrg2, hroom, hs, hs2]
    · simp [MonteLadderGoalWrapper.step, MonteLadderGoalWrapper.finished_skill,
        make_info_only, make_room_number, hrg, hs]
  · have hrg : (MonteLadderGoalWrapper.make goalsOfRoom tol false start_room).reached_goal
        inp.player_pos inp.room = false := by
      rcases h : (MonteLadderGoalWrapper.make goalsOfRoom tol false start_room).reached_goal
          inp.player_pos inp.room with _ | _
      · rfl
      · exact absurd (hspec.mp h) hs
    refine ⟨?_, ?_⟩
    · norm_num [MonteLadderGoalWrapper.step, MonteLadderGoalWrapper.finished_skill,
        make_info_only, make_room_number, hrg, hs]
    · norm_num [MonteLadderGoalWrapper.step, MonteLadderGoalWrapper.finished_skill,
        make_info_only, make_room_number, hrg, hs]

/-- C9: with `info_only=True`, `step` passes the wrapped environment's
reward, done and observation through unchanged, and the only modification to
the step result is the addition of the boolean key `reached_goal` to the
info dict. -/
theorem C9_info_only_passthrough (goalsOfRoom : ℤ → List (ℚ × ℚ)) (tol : ℚ)
    (start_room : ℤ) (inp : InnerStep) :
    (((MonteLadderGoalWrapper.make goalsOfRoom tol true start_room).step inp).1.next_state =
        inp.next_state) ∧
    (((MonteLadderGoalWrapper.make goalsOfRoom tol true start_room).step inp).1.reward =
        inp.reward) ∧
    (((MonteLadderGoalWrapper.make goalsOfRoom tol true start_room).step inp).1.done =
        inp.done) ∧
    (((MonteLadderGoalWrapper.make goalsOfRoom tol true start_room).step inp).1.info.reached_goal =
        some ((MonteLadderGoalWrapper.make goalsOfRoom tol true start_room).reached_goal
          inp.player_pos inp.room)) ∧
    (((MonteLadderGoalWrapper.make goalsOfRoom tol true start_room).step inp).1.info.needs_reset =
        inp.info.needs_reset) ∧
    (((MonteLadderGoalWrapper.make goalsOfRoom tol true start_room).step inp).1.info.other_entries =
        inp.info.other_entries) := by
  simp [MonteLadderGoalWrapper.step, MonteLadderGoalWrapper.finished_skill, make_info_only]

/-! ## Theorems for AntBridgeEnv -/

/-- C8 counterexample: a step taken from `antCE` returns `done = True`
although, after the substep, the agent is inside the floor boundaries, its
torso height exceeds `0.3`, the incremented step counter is below
`max_step`, and the goal is far away — the persistent `_outside` flag alone
forces termination, so the claim's list of conditions is not exhaustive. -/
theorem C8_counterexample :
    (AntBridgeEnv.step antCE (0, 0, 1)).1.done = true ∧
    outside_now antCE (0, 0, 1) = false ∧
    ¬((1 : ℚ) ≤ 3 / 10) ∧
    ¬(antCE.max_step ≤ antCE.current_step + 1) ∧
    ¬(distance_to_goal (0 : ℚ) < 1 / 10) := by
  refine ⟨?_, ?_, by norm_num, by decide, ?_⟩
  · simp [AntBridgeEnv.step, outside_now, antCE]
  · simp [outside_now, antCE]
  · simp [distance_to_goal]
    norm_num

/-- C8 (amended): a step returns `done = True` iff the persistent
`_outside` flag ends up set (already set previously, or the agent is outside
the floor boundaries after the substep), or the torso height is at most
`0.3`, or the incremented step counter has reached `max_step`, or the
remaining y-distance to the goal is below `0.1`; `success = True` with the
`goal_reward` added to the reward exactly in the last case. -/
theorem C8_ant_step_done (s : AntState) (p : ℚ × ℚ × ℚ) :
    ((AntBridgeEnv.step s p).1.done = true ↔
      (s.outside_flag = true ∨ outside_now s p = true ∨
        s.max_step ≤ s.current_step + 1 ∨ p.2.2 ≤ 3 / 10 ∨
        distance_to_goal p.2.1 < 1 / 10)) ∧
    ((AntBridgeEnv.step s p).1.success = true ↔ distance_to_goal p.2.1 < 1 / 10) ∧
    ((AntBridgeEnv.step s p).1.reward =
      (if outside_now s p = true then s.outside_reward else 0) +
      (if distance_to_goal p.2.1 < 1 / 10 then s.goal_reward else 0) +
      (distance_to_goal s.pos.2.1 - distance_to_goal p.2.1) * s.distanceToGoalWeight) := by
  refine ⟨?_, ?_, ?_⟩
  · simp [AntBridgeEnv.step, Bool.or_eq_true, decide_eq_true_eq, or_assoc]
  · simp [AntBridgeEnv.step]
  · simp [AntBridgeEnv.step]

/-! ## Theorems for ensemble/train.py -/

/-- C2 counterexample: on hyperparameters violating the
`target_update_interval` assertion, `check_params_validity` catches the
`AssertionError` and returns normally with the offending value repaired —
so not every assertion in the repository propagates uncaught. -/
theorem C2_counterexample :
    assertCheck (decide (paramsCE.target_update_interval =
        paramsCE.ensemble_target_update_interval * paramsCE.update_interval)) =
      Except.error "AssertionError" ∧
    check_params_validity paramsCE = Except.ok ⟨"ensemble", 6, 2, 3⟩ ∧
    (⟨"ensemble", 6, 2, 3⟩ : TrainParams) ≠ paramsCE := by
  refine ⟨rfl, rfl, by decide⟩

/-- C2 (amended): `check_params_validity` never propagates the
`AssertionError`: it returns normally, repairing `target_update_interval`
to `ensemble_target_update_interval * update_interval` exactly when the
agent is the ensemble and the value is inconsistent. -/
theorem C2_check_params_repairs (p : TrainParams) :
    check_params_validity p =
      Except.ok
        (if p.agent = "ensemble" ∧
            p.target_update_interval ≠ p.ensemble_target_update_interval * p.update_interval
          then { p with target_update_interval :=
                  p.ensemble_target_update_interval * p.update_interval }
          else p) := by
  unfold check_params_validity assertCheck
  by_cases h1 : p.agent = "ensemble"
  · by_cases h2 : p.target_update_interval =
        p.ensemble_target_update_interval * p.update_interval
    · simp [h1, h2]
    · simp [h1, h2]
  · simp [h1]

theorem trainLoop_wf {E O A G : Type} (env : EnvModel E O A) (ag : AgentModel G O A) :
    ∀ (n : ℕ) (g : G) (e : E) (s : O) (ep : ℕ),
      WFTrace (trainLoop env ag n g e s ep) ∧ countActs (trainLoop env ag n g e s ep) = n := by
  intro n
  induction n with
  | zero =>
    intro g e s ep
    exact ⟨WFTrace.nil, rfl⟩
  | succ n ih =>
    intro g e s ep
    rcases hact : ag.act g s with ⟨g1, a⟩
    rcases hstep : env.step e a with ⟨e1, s', r, d⟩
    rcases d with _ | _
    · have hl : trainLoop env ag (n + 1) g e s ep =
          TrainEvent.act s a :: TrainEvent.envStep a s' r false ::
            TrainEvent.observe s a r s' false ::
            trainLoop env ag n (ag.observe g1 s a r s' false) e1 s' ep := by
        simp [trainLoop, hact, hstep]
      obtain ⟨hwf, hc⟩ := ih (ag.observe g1 s a r s' false) e1 s' ep
      rw [hl]
      exact ⟨WFTrace.contStep _ _ _ _ _ hwf, by simp [countActs, hc]⟩
    · rcases hreset : env.reset e1 with ⟨e2, s0⟩
      have hl : trainLoop env ag (n + 1) g e s ep =
          TrainEvent.act s a :: TrainEvent.envStep a s' r true ::
            TrainEvent.observe s a r s' true ::
            TrainEvent.recordSuccess (decide (r = 1)) ep ::
            TrainEvent.reset s0 ::
            trainLoop env ag n (ag.observe g1 s a r s' true) e2 s0 (ep + 1) := by
        simp [trainLoop, hact, hstep, hreset]
      obtain ⟨hwf, hc⟩ := ih (ag.observe g1 s a r s' true) e2 s0 (ep + 1)
      rw [hl]
      exact ⟨WFTrace.doneStep _ _ _ _ _ _ _ hwf, by simp [countActs, hc]⟩

/-- C5: `train_option` is strictly sequential on one environment: with a
nonnegative `params['steps']` it performs exactly that many iterations, each
iteration calls `agent.act` on the current state, then `env.step` with that
action, then `agent.observe` with the resulting transition, in that order,
and the environment is reset (with the success recorded) exactly when `done`
came back true. -/
theorem C5_train_option_sequential {E O A G : Type} (env : EnvModel E O A)
    (ag : AgentModel G O A) (steps : ℤ) (g : G) (e0 : E) (h : 0 ≤ steps) :
    WFTrace (train_option env ag steps g e0) ∧
      (countActs (train_option env ag steps g e0) : ℤ) = steps := by
  unfold train_option
  rcases hreset : env.reset e0 with ⟨e, s0⟩
  obtain ⟨hwf, hc⟩ := trainLoop_wf env ag steps.toNat g e s0 0
  exact ⟨hwf, by rw [hc, Int.toNat_of_nonneg h]⟩

theorem C5_witness :
    (0 : ℤ) ≤ 3 ∧
      (WFTrace (train_option envC agC 3 0 0) ∧
        (countActs (train_option envC agC 3 0 0) : ℤ) = 3) :=
  ⟨by decide, C5_train_option_sequential envC agC 3 0 0 (by decide)⟩

/-- C7: `--action_selection_strat` accepts exactly `vote`, `uniform_leader`
and `leader`, defaults to `leader`, and accepted values reach the
`EnsembleAgent` constructor unchanged as its `action_selection_strategy`. -/
theorem C7_action_selection_strat :
    (parse_action_selection_strat none = Except.ok "leader") ∧
    (∀ s : String, (∃ v, parse_action_selection_strat (some s) = Except.ok v) ↔
      (s = "vote" ∨ s = "uniform_leader" ∨ s = "leader")) ∧
    (∀ s v : String, parse_action_selection_strat (some s) = Except.ok v → v = s) ∧
    (∀ (v : String) (n : ℕ),
      (setup_ensemble_agent (load_hyperparams_strat v) n).action_selection_strategy = v) := by
  refine ⟨rfl, ?_, ?_, ?_⟩
  · intro s
    constructor
    · rintro ⟨v, hv⟩
      by_cases h : s ∈ action_selection_strat_choices
      · simpa [action_selection_strat_choices] using h
      · simp [parse_action_selection_strat, h] at hv
    · intro h
      refine ⟨s, ?_⟩
      have hmem : s ∈ action_selection_strat_choices := by
        simp only [action_selection_strat_choices, List.mem_cons, List.not_mem_nil, or_false]
        tauto
      simp [parse_action_selection_strat, hmem]
  · intro s v hv
    by_cases h : s ∈ action_selection_strat_choices
    · simp [parse_action_selection_strat, h] at hv
      exact hv.symm
    · simp [parse_action_selection_strat, h] at hv
  · intro v n
    rfl

theorem C7_witness :
    (∃ v, parse_action_selection_strat (some "vote") = Except.ok v) ∧
    (setup_ensemble_agent (load_hyperparams_strat "vote") 3).action_selection_strategy =
      "vote" :=
  ⟨(C7_action_selection_strat.2.1 "vote").mpr (Or.inl rfl),
   C7_action_selection_strat.2.2.2 "vote" 3⟩

/-! ## Theorems for baseline/plot.py -/

/-- C6: the `plot.py` entry point runs exactly one plotting function, chosen
by the first set flag in the priority order compare, gap, evaluation, train,
transfer, procgen — with debug and unrolled only selecting which transfer
plot is produced — and falls back to `plot_reward_curve` on the load path
when none of these flags is set. -/
theorem C6_plot_dispatch (a : PlotArgs) :
    (plotMain a = PlotCall.all_agents_reward_data a.load ↔ a.compare = true) ∧
    (plotMain a = PlotCall.all_agents_generalization_gap a.load ↔
      (a.compare = false ∧ a.gap = true)) ∧
    (plotMain a = PlotCall.train_eval_curve a.load "eval" ↔
      (a.compare = false ∧ a.gap = false ∧ a.evaluation = true)) ∧
    (plotMain a = PlotCall.train_eval_curve a.load "train" ↔
      (a.compare = false ∧ a.gap = false ∧ a.evaluation = false ∧ a.train = true)) ∧
    (plotMain a = PlotCall.transfer_exp_all_level_curves a.load ↔
      (a.compare = false ∧ a.gap = false ∧ a.evaluation = false ∧ a.train = false ∧
        a.transfer = true ∧ a.debug = true)) ∧
    (plotMain a = PlotCall.transfer_exp_training_curve_across_levels a.load a.unrolled ↔
      (a.compare = false ∧ a.gap = false ∧ a.evaluation = false ∧ a.train = false ∧
        a.transfer = true ∧ a.debug = false)) ∧
    (plotMain a = PlotCall.eight_procgen_games a.load ↔
      (a.compare = false ∧ a.gap = false ∧ a.evaluation = false ∧ a.train = false ∧
        a.transfer = false ∧ a.procgen = true)) ∧
    (plotMain a = PlotCall.reward_curve a.load ↔
      (a.compare = false ∧ a.gap = false ∧ a.evaluation = false ∧ a.train = false ∧
        a.transfer = false ∧ a.procgen = false)) := by
  rcases a with ⟨load, c, g, e, t, f, u, p, d⟩
  rcases c with _ | _ <;> rcases g with _ | _ <;> rcases e with _ | _ <;>
    rcases t with _ | _ <;> rcases f with _ | _ <;> rcases p with _ | _ <;>
      rcases d with _ | _ <;> simp [plotMain]

theorem processSeed_error_of_bad (name : String) (sd : SeedDir)
    (h : sd.progress = none ∨
      ∀ rows, sd.progress = some rows → maxTotalSteps rows ≠ some 10000000) :
    processSeed name sd = Except.error assertMsg_missing_csv ∨
      processSeed name sd = Except.error assertMsg_incomplete := by
  rcases hsd : sd.progress with _ | rows
  · left
    simp [processSeed, hsd]
  · right
    rcases h with h | h
    · rw [hsd] at h
      cases h
    · have hne := h rows hsd
      simp [processSeed, hsd, hne]

theorem processSeed_error_msgs (name : String) (sd : SeedDir) (e : String)
    (h : processSeed name sd = Except.error e) :
    e = assertMsg_missing_csv ∨ e = assertMsg_incomplete := by
  unfold processSeed at h
  rcases hsd : sd.progress with _ | rows <;> rw [hsd] at h <;> dsimp only at h
  · left
    cases h
    rfl
  · by_cases hm : maxTotalSteps rows = some 10000000
    · rw [if_pos hm] at h
      cases h
    · rw [if_neg hm] at h
      right
      cases h
      rfl

theorem processSeeds_error_msgs (name : String) :
    ∀ (l : List SeedDir) (acc : List DfRow) (e : String),
      processSeeds name l acc = Except.error e →
      e = assertMsg_missing_csv ∨ e = assertMsg_incomplete := by
  intro l
  induction l with
  | nil =>
    intro acc e h
    cases h
  | cons sd rest ih =>
    intro acc e h
    rcases hps : processSeed name sd with e' | df <;>
      rw [processSeeds, hps] at h
    · cases h
      exact processSeed_error_msgs name sd e hps
    · exact ih (acc ++ df) e h

theorem processAgent_error_msgs (a : AgentEntry) (acc : List DfRow) (e : String)
    (h : processAgent a acc = Except.error e) :
    e = assertMsg_missing_csv ∨ e = assertMsg_incomplete := by
  unfold processAgent at h
  by_cases hd : a.is_dir = true
  · rw [if_pos hd] at h
    exact processSeeds_error_msgs a.name a.seeds acc e h
  · rw [if_neg hd] at h
    cases h

theorem processSeeds_error_of_bad (name : String) :
    ∀ (l : List SeedDir) (acc : List DfRow),
      (∃ sd ∈ l, sd.progress = none ∨
        ∀ rows, sd.progress = some rows → maxTotalSteps rows ≠ some 10000000) →
      processSeeds name l acc = Except.error assertMsg_missing_csv ∨
        processSeeds name l acc = Except.error assertMsg_incomplete := by
  intro l
  induction l with
  | nil =>
    rintro acc ⟨sd, hmem, _⟩
    cases hmem
  | cons sd0 rest ih =>
    rintro acc ⟨sd, hmem, hbad⟩
    rcases hps : processSeed name sd0 with e | df
    · have := processSeed_error_msgs name sd0 e hps
      rw [processSeeds, hps]
      rcases this with h1 | h1 <;> rw [h1]
      · left; rfl
      · right; rfl
    · rw [processSeeds, hps]
      rcases List.mem_cons.mp hmem with rfl | hmem'
      · rcases processSeed_error_of_bad name sd hbad with hc | hc <;>
          rw [hps] at hc <;> cases hc
      · exact ih (acc ++ df) ⟨sd, hmem', hbad⟩

theorem collectRows_error_of_bad :
    ∀ (entries : List AgentEntry) (acc : List DfRow),
      (∃ a ∈ entries, a.is_dir = true ∧ ∃ sd ∈ a.seeds,
        sd.progress = none ∨
          ∀ rows, sd.progress = some rows → maxTotalSteps rows ≠ some 10000000) →
      collectRows entries acc = Except.error assertMsg_missing_csv ∨
        collectRows entries acc = Except.error assertMsg_incomplete := by
  intro entries
  induction entries with
  | nil =>
    rintro acc ⟨a, hmem, _⟩
    cases hmem
  | cons a0 rest ih =>
    rintro acc ⟨a, hmem, hdir, sd, hsd, hbad⟩
    rcases hpa : processAgent a0 acc with e | acc2
    · have := processAgent_error_msgs a0 acc e hpa
      rw [collectRows, hpa]
      rcases this with h1 | h1 <;> rw [h1]
      · left; rfl
      · right; rfl
    · rw [collectRows, hpa]
      rcases List.mem_cons.mp hmem with rfl | hmem'
      · have hseeds : processAgent a acc = processSeeds a.name a.seeds acc := by
          unfold processAgent
          rw [if_pos hdir]
        rcases processSeeds_error_of_bad a.name a.seeds acc ⟨sd, hsd, hbad⟩ with hc | hc <;>
          rw [hseeds, hc] at hpa <;> cases hpa
      · exact ih acc2 ⟨a, hmem', hdir, sd, hsd, hbad⟩

/-- C3: for every visited agent/seed subdirectory,
`process_training_curve_csv_file` asserts that `progress.csv` exists and
that the maximum of its `total_steps` column is exactly 10,000,000; whenever
either check fails the computation terminates with an `AssertionError`. -/
theorem C3_progress_asserts (entries : List AgentEntry) (avg : Bool)
    (h : ∃ a ∈ entries, a.is_dir = true ∧ ∃ sd ∈ a.seeds,
      sd.progress = none ∨
        ∀ rows, sd.progress = some rows → maxTotalSteps rows ≠ some 10000000) :
    process_training_curve_csv_file entries avg = Except.error assertMsg_missing_csv ∨
      process_training_curve_csv_file entries avg = Except.error assertMsg_incomplete := by
  rcases collectRows_error_of_bad entries [] h with hc | hc <;>
    unfold process_training_curve_csv_file <;> rw [hc]
  · left; rfl
  · right; rfl

theorem C3_witness :
    process_training_curve_csv_file entriesBad true = Except.error assertMsg_missing_csv ∨
      process_training_curve_csv_file entriesBad true = Except.error assertMsg_incomplete :=
  C3_progress_asserts entriesBad true
    ⟨⟨"ppo", true, [⟨0, none⟩]⟩, by decide, rfl, ⟨0, none⟩, by decide, Or.inl rfl⟩

theorem optMax_le (l : List (Option ℚ)) (x : ℚ) (hx : some x ∈ l) :
    ∃ m, optMax l = some m ∧ x ≤ m := by
  induction l with
  | nil => cases hx
  | cons hd rest ih =>
    rcases hd with _ | v
    · rcases List.mem_cons.mp hx with h | h
      · cases h
      · obtain ⟨m, hm, hle⟩ := ih h
        exact ⟨m, by rw [optMax, hm], hle⟩
    · rcases List.mem_cons.mp hx with h | h
      · have hxv : x = v := by
          cases h
          rfl
        rcases hrest : optMax rest with _ | m
        · exact ⟨v, by rw [optMax, hrest], le_of_eq hxv⟩
        · exact ⟨max v m, by rw [optMax, hrest], hxv ▸ le_max_left v m⟩
      · obtain ⟨m, hm, hle⟩ := ih h
        exact ⟨max v m, by rw [optMax, hm], le_trans hle (le_max_right v m)⟩

theorem mem_nanFilter_not_na (rows : List DfRow) (r : DfRow)
    (h : r ∈ nanFilter rows) : isnaRow r = false := by
  rcases List.mem_filter.mp h with ⟨hmem, hkeep⟩
  rcases hlts : r.level_total_steps with _ | x
  · rcases hmx : maxNanStep rows with _ | m <;>
      rw [hlts, hmx] at hkeep <;> cases hkeep
  · rcases hna : isnaRow r with _ | _
    · rfl
    · have hfmem : r ∈ rows.filter isnaRow := List.mem_filter.mpr ⟨hmem, hna⟩
      have hmap : some x ∈ (rows.filter isnaRow).map (fun r => r.level_total_steps) :=
        List.mem_map.mpr ⟨r, hfmem, hlts⟩
      obtain ⟨m, hm, hle⟩ := optMax_le _ x hmap
      have hmx : maxNanStep rows = some m := hm
      rw [hlts, hmx] at hkeep
      simp only [optGt, decide_eq_true_eq] at hkeep
      linarith

theorem row_le_maxNan_removed (rows : List DfRow) (r : DfRow) (x m : ℚ)
    (hlts : r.level_total_steps = some x) (hmx : maxNanStep rows = some m)
    (hle : x ≤ m) : r ∉ nanFilter rows := by
  intro hmem
  have hkeep := (List.mem_filter.mp hmem).2
  rw [hlts, hmx] at hkeep
  simp only [optGt, decide_eq_true_eq] at hkeep
  linarith

theorem optMean_isSome (l : List (Option ℚ)) (v : ℚ) (hv : some v ∈ l) :
    ∃ w, optMean l = some w := by
  have hmem : v ∈ l.filterMap id := List.mem_filterMap.mpr ⟨some v, hv, rfl⟩
  have hne : l.filterMap id ≠ [] := List.ne_nil_of_mem hmem
  have hlen : (l.filterMap id).length ≠ 0 := by
    simpa [List.length_eq_zero] using hne
  exact ⟨_, by simp only [optMean]; rw [if_neg hlen]⟩

theorem dfKey_build (k : Option ℚ × String × ℤ) (a b c : Option ℚ) :
    dfKey ⟨k.1, a, b, c, k.2.1, k.2.2⟩ = k := rfl

theorem groupbyMean_not_na (rows : List DfRow)
    (h : ∀ r ∈ rows, isnaRow r = false) :
    ∀ o ∈ groupbyMean rows, isnaRow o = false := by
  intro o ho
  rcases List.mem_map.mp ho with ⟨k, hk, rfl⟩
  have hk' : k ∈ rows.map dfKey := List.mem_dedup.mp hk
  rcases List.mem_map.mp hk' with ⟨r0, hr0, hkey⟩
  have hna := h r0 hr0
  rcases h1 : r0.level_total_steps with _ | lts0
  · simp [isnaRow, h1] at hna
  rcases h2 : r0.level_index with _ | li0
  · simp [isnaRow, h2] at hna
  rcases h3 : r0.ep_reward_mean with _ | ep0
  · simp [isnaRow, h3] at hna
  rcases h4 : r0.total_steps with _ | ts0
  · simp [isnaRow, h4] at hna
  have hgrp : r0 ∈ rows.filter (fun r => decide (dfKey r = k)) :=
    List.mem_filter.mpr ⟨hr0, by simp [hkey]⟩
  obtain ⟨w2, hw2⟩ := optMean_isSome
    ((rows.filter (fun r => decide (dfKey r = k))).map (fun r => r.level_index)) li0
    (List.mem_map.mpr ⟨r0, hgrp, h2⟩)
  obtain ⟨w3, hw3⟩ := optMean_isSome
    ((rows.filter (fun r => decide (dfKey r = k))).map (fun r => r.ep_reward_mean)) ep0
    (List.mem_map.mpr ⟨r0, hgrp, h3⟩)
  obtain ⟨w4, hw4⟩ := optMean_isSome
    ((rows.filter (fun r => decide (dfKey r = k))).map (fun r => r.total_steps)) ts0
    (List.mem_map.mpr ⟨r0, hgrp, h4⟩)
  have hk1 : k.1 = some lts0 := by
    rw [← hkey, dfKey, h1]
  simp [isnaRow, hk1, hw2, hw3, hw4]

theorem sparsify_subset (rows : List DfRow) (r : DfRow) (h : r ∈ sparsify rows) :
    r ∈ rows := (List.mem_filter.mp h).1

/-- C10: every dataframe `process_training_curve_csv_file` returns contains
no NaN entries; every collected row whose `level_total_steps` is at most the
maximum `level_total_steps` among NaN-containing rows is removed by the
filter, and in particular every NaN row is removed. -/
theorem C10_no_nan (entries : List AgentEntry) (avg : Bool) (out : List DfRow)
    (h : process_training_curve_csv_file entries avg = Except.ok out) :
    (∀ r ∈ out, isnaRow r = false) ∧
    (∀ rewards, collectRows entries [] = Except.ok rewards →
      ∀ r ∈ rewards, ∀ x m, r.level_total_steps = some x →
        maxNanStep rewards = some m → x ≤ m → r ∉ nanFilter rewards) := by
  constructor
  · unfold process_training_curve_csv_file at h
    rcases hc : collectRows entries [] with e | rewards <;> rw [hc] at h <;>
      dsimp only at h
    · cases h
    · by_cases hemp : rewards.isEmpty
      · rw [if_pos hemp] at h
        cases h
      · rw [if_neg hemp] at h
        rcases avg with _ | _
        · have hout : out = sparsify (nanFilter rewards) := by
            cases h
            rfl
          intro r hr
          rw [hout] at hr
          exact mem_nanFilter_not_na rewards r (sparsify_subset _ r hr)
        · have hout : out = groupbyMean (nanFilter rewards) := by
            cases h
            rfl
          intro r hr
          rw [hout] at hr
          exact groupbyMean_not_na (nanFilter rewards)
            (fun q hq => mem_nanFilter_not_na rewards q hq) r hr
  · intro rewards _ r _ x m h1 h2 h3
    exact row_le_maxNan_removed rewards r x m h1 h2 h3

theorem process_entriesA_raw :
    process_training_curve_csv_file entriesA true = Except.ok
      [⟨some 200, optMean [some 0], optMean [some 3], optMean [some 10000000],
        "Ppo", 0⟩] := rfl

theorem process_entriesA_eval :
    process_training_curve_csv_file entriesA true = Except.ok outA := by
  rw [process_entriesA_raw]
  norm_num [optMean, outA, List.sum, List.filterMap_cons, List.filterMap_nil, id]

theorem C10_witness :
    (∀ r ∈ outA, isnaRow r = false) ∧
    (∀ rewards, collectRows entriesA [] = Except.ok rewards →
      ∀ r ∈ rewards, ∀ x m, r.level_total_steps = some x →
        maxNanStep rewards = some m → x ≤ m → r ∉ nanFilter rewards) :=
  C10_no_nan entriesA true outA process_entriesA_eval

theorem map_build_key (rows : List DfRow) (l : List (Option ℚ × String × ℤ)) :
    (l.map (fun k =>
      (⟨k.1,
        optMean ((rows.filter (fun r => decide (dfKey r = k))).map (fun r => r.level_index)),
        optMean ((rows.filter (fun r => decide (dfKey r = k))).map (fun r => r.ep_reward_mean)),
        optMean ((rows.filter (fun r => decide (dfKey r = k))).map (fun r => r.total_steps)),
        k.2.1, k.2.2⟩ : DfRow))).map dfKey = l := by
  induction l with
  | nil => rfl
  | cons k rest ih =>
    simp only [List.map_cons]
    rw [ih]
    rfl

theorem groupbyMean_map_key (rows : List DfRow) :
    (groupbyMean rows).map dfKey = (rows.map dfKey).dedup := by
  unfold groupbyMean
  exact map_build_key rows ((rows.map dfKey).dedup)

/-- C4: with `average_across_levels` true, the returned dataframe has
exactly one row per distinct `(level_total_steps, agent, seed)` combination
present in the NaN-filtered data, and its numeric columns are the means over
the rows of that group. -/
theorem C4_groupby_mean (entries : List AgentEntry) (out : List DfRow)
    (h : process_training_curve_csv_file entries true = Except.ok out) :
    ∃ rewards, collectRows entries [] = Except.ok rewards ∧
      out = groupbyMean (nanFilter rewards) ∧
      (out.map dfKey).Nodup ∧
      (∀ k, k ∈ out.map dfKey ↔ k ∈ (nanFilter rewards).map dfKey) ∧
      (∀ o ∈ out,
        o.level_index = optMean (((nanFilter rewards).filter
            (fun r => decide (dfKey r = dfKey o))).map (fun r => r.level_index)) ∧
        o.ep_reward_mean = optMean (((nanFilter rewards).filter
            (fun r => decide (dfKey r = dfKey o))).map (fun r => r.ep_reward_mean)) ∧
        o.total_steps = optMean (((nanFilter rewards).filter
            (fun r => decide (dfKey r = dfKey o))).map (fun r => r.total_steps))) := by
  unfold process_training_curve_csv_file at h
  rcases hc : collectRows entries [] with e | rewards <;> rw [hc] at h <;> dsimp only at h
  · cases h
  · by_cases hemp : rewards.isEmpty
    · rw [if_pos hemp] at h
      cases h
    · rw [if_neg hemp] at h
      cases h
      refine ⟨rewards, rfl, rfl, ?_, ?_, ?_⟩
      · rw [groupbyMean_map_key]
        exact List.nodup_dedup _
      · intro k
        rw [groupbyMean_map_key, List.mem_dedup]
      · intro o ho
        rcases List.mem_map.mp ho with ⟨k, hk, rfl⟩
        exact ⟨rfl, rfl, rfl⟩

theorem C4_witness :
    ∃ rewards, collectRows entriesA [] = Except.ok rewards ∧
      outA = groupbyMean (nanFilter rewards) ∧
      (outA.map dfKey).Nodup ∧
      (∀ k, k ∈ outA.map dfKey ↔ k ∈ (nanFilter rewards).map dfKey) ∧
      (∀ o ∈ outA,
        o.level_index = optMean (((nanFilter rewards).filter
            (fun r => decide (dfKey r = dfKey o))).map (fun r => r.level_index)) ∧
        o.ep_reward_mean = optMean (((nanFilter rewards).filter
            (fun r => decide (dfKey r = dfKey o))).map (fun r => r.ep_reward_mean)) ∧
        o.total_steps = optMean (((nanFilter rewards).filter
            (fun r => decide (dfKey r = dfKey o))).map (fun r => r.total_steps))) :=
  C4_groupby_mean entriesA outA process_entriesA_eval
